import Mathlib

/-!
# Verification of the bedrock-lib request/response mapping layer

A shallow embedding, in Lean 4, of the mapping core of the `bedrock-lib`
command-line clients: attachment classification (`src/lib/file.rs`),
media encoding for the Converse API (`src/lib/converse/modalities.rs`),
the InvokeModel request builder (`src/lib/amazon_nova/text/mod.rs`,
`src/lib/invoke_model/amazon/nova.rs`), the response decoders
(`src/cli/nova/nova_main.rs`, `src/lib/models/amazon.rs`), and the
interactive Converse turn (`say` in `src/cli/converse/converse_main.rs`).

Conventions of the embedding:

* Rust functions that can `panic!` / `assert!` / `todo!` / `.unwrap()` are
  embedded with an explicit `processAbort` (or `panicked`) outcome: the
  constructor records that the Rust process would abort at that point, as
  opposed to returning an error value to the caller.
* File-system reads (`std::fs::read` via `genlib::file::read` /
  `read_base64`) are abstracted by an oracle `fs : String → Option (List Nat)`
  giving the byte contents of a path; `none` means the read fails, which the
  source turns into a panic via `.unwrap()`.
* `shellexpand::full` (home-directory / environment expansion) is an external
  collaborator (spec §6); it is modelled as the identity, which is exact for
  paths containing no `~` or `$`, as in all inputs considered here.
* The blocking transport call (`client.converse().send()`) is abstracted by a
  function from the sent message history to `Except TransportError (Option reply)`;
  `Except.error` models an `Err` from the SDK (which the source `.unwrap()`s),
  `Except.ok none` models a response with no `ConverseOutput::Message`.
-/

namespace BedrockLib

/-! ## Bytes and base64 (`file.rs`, `Base64Encoding`) -/

/-- The RFC 4648 standard base64 alphabet, as used by `BASE64_STANDARD`. -/
def base64Alphabet : List Char :=
  ['A','B','C','D','E','F','G','H','I','J','K','L','M','N','O','P','Q','R',
   'S','T','U','V','W','X','Y','Z','a','b','c','d','e','f','g','h','i','j',
   'k','l','m','n','o','p','q','r','s','t','u','v','w','x','y','z','0','1',
   '2','3','4','5','6','7','8','9','+','/']

/-- Character for a 6-bit group. -/
def b64char (n : Nat) : Char := base64Alphabet.getD n 'A'

/-- RFC 4648 standard base64 with padding, three input bytes at a time.
Bytes are `Nat`s below 256. -/
def base64EncodeList : List Nat → List Char
  | [] => []
  | [a] =>
      [b64char (a / 4), b64char (a % 4 * 16), '=', '=']
  | [a, b] =>
      [b64char (a / 4), b64char (a % 4 * 16 + b / 16), b64char (b % 16 * 4), '=']
  | a :: b :: c :: rest =>
      b64char (a / 4) :: b64char (a % 4 * 16 + b / 16) ::
        b64char (b % 16 * 4 + c / 64) :: b64char (c % 64) :: base64EncodeList rest

/-- Model of `Base64Encoding::encode` over the bytes of a file. -/
def base64Encode (bs : List Nat) : String := ⟨base64EncodeList bs⟩

/-! ## Path handling (`file.rs`) -/

/-- Split a character list on a separator, keeping empty segments
(the behaviour of iterating `str::split`). -/
def splitOnChar (sep : Char) : List Char → List (List Char)
  | [] => [[]]
  | c :: rest =>
    match splitOnChar sep rest with
    | [] => [[c]]
    | h :: t => if c = sep then [] :: h :: t else (c :: h) :: t

/-- ASCII lowercase of a string (`str::to_lowercase` restricted to the ASCII
extensions this code deals in). -/
def toLowerStr (s : String) : String := ⟨s.toList.map Char.toLower⟩

/-- Model of `shellexpand::full`: external expansion collaborator, modelled
as the identity (exact on inputs without `~` or `$`). -/
def expand (filename : String) : String := filename

/-- The last `/`-separated segment of a path: `Path::file_name` as it behaves
on the plain path strings used here. -/
def lastSegment (path : String) : String :=
  ⟨(splitOnChar '/' path.toList).getLastD []⟩

/-- Embeds `get_extension_from_filename` (`file.rs`):
`Path::extension` of the expanded path — the portion of the final segment
after its last `.`, except that a name with no `.`, or beginning with `.`
with no further `.`, has no extension; absence maps to `""`
(`unwrap_or_default`). -/
def get_extension_from_filename (filename : String) : String :=
  let name := lastSegment (expand filename)
  match splitOnChar '.' name.toList with
  | [] => ""
  | [_] => ""
  | [[], _] => ""
  | ps => ⟨ps.getLastD []⟩

/-- Embeds `get_file_stem` (`file.rs`): `Path::file_stem` of the expanded
path, absence mapping to `""`. -/
def get_file_stem (filename : String) : String :=
  let name := lastSegment (expand filename)
  match splitOnChar '.' name.toList with
  | [] => ""
  | [_] => name
  | [[], _] => name
  | ps => ⟨List.intercalate ['.'] ps.dropLast⟩

/-- Embeds `value.starts_with("s3://")`. -/
def startsWithS3 (s : String) : Bool := s.toList.take 5 = "s3://".toList

/-! ## Classification (`From<String> for FileReference`, `file.rs`) -/

/-- Embeds `Location` (`file.rs`). -/
inductive Location where
  | local
  | s3
deriving DecidableEq, Repr

/-- Embeds `Type` (`file.rs`) — coarse media kind. -/
inductive FileType where
  | image
  | video
  | document
deriving DecidableEq, Repr

/-- Embeds `FileReference` (`file.rs`). `stem` and `extension` unwrap the
`FileStem` / `FileExtension` newtypes. -/
structure FileReference where
  file_type : FileType
  location : Location
  path : String
  stem : String
  extension : String
deriving DecidableEq, Repr

/-- The image arm of the extension match in `From<String> for FileReference`. -/
def imageExts : List String := ["png", "jpg", "jpeg", "gif", "webp"]

/-- The video arm of the extension match in `From<String> for FileReference`. -/
def videoExts : List String := ["mp4", "mov", "webm", "mpeg", "mpg", "m4v", "avi"]

/-- The document arm of the extension match in `From<String> for FileReference`. -/
def documentExts : List String :=
  ["csv", "doc", "docx", "html", "md", "pdf", "txt", "xls", "xlsx"]

/-- The arms of the extension match in `From<String> for FileReference`,
over the already-lowercased extension; `none` is the `panic!` arm. -/
def classifyLower (lowered : String) : Option FileType :=
  if lowered ∈ imageExts then some .image
  else if lowered ∈ videoExts then some .video
  else if lowered ∈ documentExts then some .document
  else none

/-- The `match extension.0.to_lowercase().as_str()` in
`From<String> for FileReference`. -/
def classifyExtension (ext : String) : Option FileType :=
  classifyLower (toLowerStr ext)

/-- Outcome of `From<String> for FileReference`: `processAbort` models the
`panic!("Unsupported file type {}", value)` arm, which aborts the process
carrying the original string. -/
inductive ClassifyResult where
  | ok (r : FileReference)
  | processAbort (path : String)
deriving DecidableEq, Repr

/-- Embeds `From<String> for FileReference` (`file.rs`): location from the
`s3://` path marker, lowercased stem, extension kept in its original case,
kind from the lowercased extension, panic on an unmatched extension. -/
def fileReferenceFromString (value : String) : ClassifyResult :=
  let location := if startsWithS3 value then Location.s3 else Location.local
  let stem := toLowerStr (get_file_stem value)
  let extension := get_extension_from_filename value
  match classifyExtension extension with
  | some t => .ok ⟨t, location, value, stem, extension⟩
  | none => .processAbort value

/-! ## Converse media formats (`converse/modalities.rs`) -/

/-- Embeds `aws_sdk_bedrockruntime::types::ImageFormat` (the variants used). -/
inductive ImageFormat where
  | gif | jpeg | png | webp
deriving DecidableEq, Repr

/-- Embeds `aws_sdk_bedrockruntime::types::VideoFormat` (the variants used). -/
inductive VideoFormat where
  | flv | mkv | mov | mp4 | mpg | mpeg | threeGp | webm | wmv
deriving DecidableEq, Repr

/-- Embeds `aws_sdk_bedrockruntime::types::DocumentFormat` (the variants used). -/
inductive DocumentFormat where
  | csv | doc | docx | html | md | pdf | txt | xls | xlsx
deriving DecidableEq, Repr

/-- Embeds `video_fmt` (`modalities.rs` and `converse_main.rs`): note the
match is on the extension as given — no lowercasing. -/
def video_fmt (format : String) : Option VideoFormat :=
  if format = "flv" then some .flv
  else if format = "mkv" then some .mkv
  else if format = "mov" then some .mov
  else if format = "mp4" then some .mp4
  else if format = "mpg" then some .mpg
  else if format = "mpeg" then some .mpeg
  else if format = "3gp" then some .threeGp
  else if format = "webm" then some .webm
  else if format = "wmv" then some .wmv
  else none

/-- The arms of `image_fmt`, over the already-lowercased format string. -/
def imageFmtLower (lowered : String) : Option ImageFormat :=
  if lowered = "gif" then some .gif
  else if lowered = "jpeg" ∨ lowered = "jpg" then some .jpeg
  else if lowered = "png" then some .png
  else if lowered = "webp" then some .webp
  else none

/-- Embeds `image_fmt` (`modalities.rs` and `converse_main.rs`): matches on
`format.to_lowercase()`. -/
def image_fmt (format : String) : Option ImageFormat :=
  imageFmtLower (toLowerStr format)

/-- The arms of `doc_fmt`, over the already-lowercased format string. -/
def docFmtLower (lowered : String) : Option DocumentFormat :=
  if lowered = "csv" then some .csv
  else if lowered = "doc" then some .doc
  else if lowered = "docx" then some .docx
  else if lowered = "html" then some .html
  else if lowered = "md" then some .md
  else if lowered = "pdf" then some .pdf
  else if lowered = "txt" then some .txt
  else if lowered = "xls" then some .xls
  else if lowered = "xlsx" then some .xlsx
  else none

/-- Embeds `doc_fmt` (`modalities.rs` and `converse_main.rs`): matches on
`format.to_lowercase()`. -/
def doc_fmt (format : String) : Option DocumentFormat :=
  docFmtLower (toLowerStr format)

/-- Embeds `aws_sdk_bedrockruntime::types::ContentBlock`, shallowly: the
variants the Converse CLI constructs or matches on.  Image and Document sources are inline
bytes; Video may be inline bytes or an S3 location; a Document block carries
the display name (the file stem). -/
inductive CBlock where
  | text (s : String)
  | image (fmt : ImageFormat) (bytes : List Nat)
  | videoBytes (fmt : VideoFormat) (bytes : List Nat)
  | videoS3 (fmt : VideoFormat) (uri : String)
  | document (fmt : DocumentFormat) (name : String) (bytes : List Nat)
  | toolUse
  | toolResult
  | guardContent
deriving DecidableEq, Repr

/-- Outcome of `TryFrom<AttachmentPath> for ContentBlock` (`modalities.rs`):
`invalidPath` is `Err(InvalidPath(path))`; `processAbort` is a panic reached
inside the conversion — either the `panic!` in `From<String> for
FileReference` or the `.unwrap()` on a failing `fs::read`. -/
inductive AttachResult where
  | ok (b : CBlock)
  | invalidPath (p : String)
  | processAbort (msg : String)
deriving DecidableEq, Repr

/-- Embeds `TryFrom<AttachmentPath> for ContentBlock` (`modalities.rs`),
with the filesystem abstracted by `fs`. -/
def contentBlockOfPath (fs : String → Option (List Nat)) (path : String) :
    AttachResult :=
  match fileReferenceFromString path with
  | .processAbort p => .processAbort p
  | .ok fr =>
    match fr.file_type, fr.location with
    | .image, .local =>
      match image_fmt fr.extension with
      | none => .invalidPath fr.path
      | some fmt =>
        match fs fr.path with
        | none => .processAbort fr.path
        | some bytes => .ok (.image fmt bytes)
    | .video, .local =>
      match video_fmt fr.extension with
      | none => .invalidPath fr.path
      | some fmt =>
        match fs fr.path with
        | none => .processAbort fr.path
        | some bytes => .ok (.videoBytes fmt bytes)
    | .video, .s3 =>
      match video_fmt fr.extension with
      | none => .invalidPath fr.path
      | some fmt => .ok (.videoS3 fmt fr.path)
    | .document, .local =>
      match doc_fmt fr.extension with
      | none => .invalidPath fr.path
      | some fmt =>
        match fs fr.path with
        | none => .processAbort fr.path
        | some bytes => .ok (.document fmt fr.stem bytes)
    | _, _ => .invalidPath fr.path

/-! ## InvokeModel wire types (`invoke_model/amazon/nova.rs`) -/

/-- Embeds `Role` — serde renames to lowercase on the wire. -/
inductive Role where
  | user
  | assistant
deriving DecidableEq, Repr

/-- Embeds `ImageSource { bytes }`: the base64 string. -/
structure NImageSource where
  bytes : String
deriving DecidableEq, Repr

/-- Embeds `Image { format, source }`. -/
structure NImage where
  format : String
  source : NImageSource
deriving DecidableEq, Repr

/-- Embeds `VideoSource`: `s3Location` or inline base64 `bytes`. -/
inductive NVideoSource where
  | s3Location (uri : String)
  | bytes (b : String)
deriving DecidableEq, Repr

/-- Embeds `Video { format, source }`. -/
structure NVideo where
  format : String
  source : NVideoSource
deriving DecidableEq, Repr

/-- Embeds `Content` — externally tagged on the wire with lowercase tags. -/
inductive NContent where
  | text (s : String)
  | image (i : NImage)
  | video (v : NVideo)
deriving DecidableEq, Repr

/-- Embeds `Message { role, content }`. -/
structure NMessage where
  role : Role
  content : List NContent
deriving DecidableEq, Repr

/-- Embeds `SystemPrompt { text }`. -/
structure NSystemPrompt where
  text : String
deriving DecidableEq, Repr

/-- Embeds `InferenceConfig` — all knobs optional, stop sequences a list.  The
`f32` knobs (`temperature`, `top_p`) are modelled as rationals; only their
presence matters to the wire-shape claims. -/
structure InferenceConfig where
  max_new_tokens : Option Nat
  temperature : Option Rat
  top_p : Option Rat
  top_k : Option Nat
  stop_sequences : List String
deriving DecidableEq, Repr

/-- Embeds `Default::default()` for `InferenceConfig`. -/
def InferenceConfig.default : InferenceConfig := ⟨none, none, none, none, []⟩

/-- Embeds `InferenceConfig::is_empty` (`invoke_model/amazon/nova.rs`). -/
def InferenceConfig.is_empty (c : InferenceConfig) : Bool :=
  c.max_new_tokens.isNone && c.temperature.isNone && c.top_p.isNone &&
    c.top_k.isNone && c.stop_sequences.isEmpty

/-- Embeds `Request { system, messages, inferenceConfig }`. -/
structure Request where
  system : List NSystemPrompt
  messages : List NMessage
  inference_config : InferenceConfig
deriving DecidableEq, Repr

/-! ## Serde JSON encoding of a `Request` -/

/-- A JSON value, as much of it as the wire encoding needs. -/
inductive JValue where
  | str (s : String)
  | num (n : Nat)
  | flt (q : Rat)
  | arr (elems : List JValue)
  | obj (fields : List (String × JValue))
deriving Repr

/-- Does a JSON object have a field of the given key?  (Structural presence,
not value.) -/
def JValue.hasKey (j : JValue) (k : String) : Bool :=
  match j with
  | .obj fields => fields.any (fun p => decide (p.1 = k))
  | _ => false

/-- Serde encoding of `Role` (`rename_all = "lowercase"`). -/
def roleToJson : Role → JValue
  | .user => .str "user"
  | .assistant => .str "assistant"

/-- Serde encoding of `Content` — externally tagged, lowercase tags, field
names as in the structs. -/
def contentToJson : NContent → JValue
  | .text s => .obj [("text", .str s)]
  | .image i =>
      .obj [("image", .obj [("format", .str i.format),
        ("source", .obj [("bytes", .str i.source.bytes)])])]
  | .video v =>
      .obj [("video", .obj [("format", .str v.format),
        ("source", match v.source with
          | .s3Location uri => .obj [("s3Location", .obj [("uri", .str uri)])]
          | .bytes b => .obj [("bytes", .str b)])])]

/-- Serde encoding of `Message`. -/
def messageToJson (m : NMessage) : JValue :=
  .obj [("role", roleToJson m.role), ("content", .arr (m.content.map contentToJson))]

/-- Serde encoding of `InferenceConfig`: every `None` knob is skipped
(`skip_serializing_if = "Option::is_none"`), an empty stop list is skipped
(`skip_serializing_if = "Vec::is_empty"`, wire name `stopSequences`). -/
def inferenceConfigToJson (c : InferenceConfig) : JValue :=
  .obj ((match c.max_new_tokens with
          | none => [] | some v => [("max_new_tokens", JValue.num v)]) ++
        (match c.temperature with
          | none => [] | some v => [("temperature", JValue.flt v)]) ++
        (match c.top_p with
          | none => [] | some v => [("top_p", JValue.flt v)]) ++
        (match c.top_k with
          | none => [] | some v => [("top_k", JValue.num v)]) ++
        (if c.stop_sequences.isEmpty then []
         else [("stopSequences", JValue.arr (c.stop_sequences.map JValue.str))]))

/-- Serde encoding of `Request`: `system` is skipped when the list is empty
(`skip_serializing_if = "Vec::is_empty"`), `messages` is always present, and
the whole `inferenceConfig` object (wire name per `rename`) is skipped when
`InferenceConfig::is_empty` holds. -/
def requestToJson (r : Request) : JValue :=
  .obj ((if r.system.isEmpty then []
         else [("system", JValue.arr (r.system.map (fun s => .obj [("text", .str s.text)])))]) ++
        [("messages", JValue.arr (r.messages.map messageToJson))] ++
        (if r.inference_config.is_empty then []
         else [("inferenceConfig", inferenceConfigToJson r.inference_config)]))

/-! ## InvokeModel request building (`amazon_nova/text/mod.rs`, `invoke_model`)

The request-side half of `invoke_model`: the construction of `user_content`,
`messages`, `system` and the `Request` value that is serialized and sent.
(The declared submodule `amazon_nova::text::json` is not among the sources;
its types are taken from `invoke_model/amazon/nova.rs`, whose `Request` /
`Content` / `Message` definitions the call sites match exactly.) -/

/-- Outcome of a build step: `processAbort` models a `panic!` /
`.unwrap()` aborting the process. -/
inductive BuildResult (α : Type) where
  | ok (a : α)
  | processAbort (msg : String)
deriving DecidableEq, Repr

/-- One arm of the attachment loop in `invoke_model`: Image/Video local read
`read_base64` (panicking if the read fails), S3 video takes the URI with no
read, and the remaining combinations hit the `panic!("Unsupported file type")`
arm.  The wire `format` is the extension exactly as stored (original case). -/
def encodeAttachment (fs : String → Option (List Nat)) (a : FileReference) :
    BuildResult NContent :=
  match a.file_type, a.location with
  | .image, .local =>
    match fs a.path with
    | none => .processAbort a.path
    | some bytes => .ok (.image ⟨a.extension, ⟨base64Encode bytes⟩⟩)
  | .video, .local =>
    match fs a.path with
    | none => .processAbort a.path
    | some bytes => .ok (.video ⟨a.extension, .bytes (base64Encode bytes)⟩)
  | .video, .s3 => .ok (.video ⟨a.extension, .s3Location a.path⟩)
  | _, _ => .processAbort a.path

/-- The attachment loop of `invoke_model`, pushing one content block per
attachment in order and aborting at the first failure. -/
def encodeAttachments (fs : String → Option (List Nat)) :
    List FileReference → BuildResult (List NContent)
  | [] => .ok []
  | a :: rest =>
    match encodeAttachment fs a with
    | .processAbort m => .processAbort m
    | .ok c =>
      match encodeAttachments fs rest with
      | .processAbort m => .processAbort m
      | .ok cs => .ok (c :: cs)

/-- The message list of `invoke_model`: the user message first, then the
optional assistant prefill. -/
def buildMessages (user_content : List NContent)
    (assistant_prefill : Option String) : List NMessage :=
  ⟨.user, user_content⟩ ::
    (match assistant_prefill with
     | none => []
     | some prefill => [⟨.assistant, [.text prefill]⟩])

/-- The system list of `invoke_model`: empty, or a singleton. -/
def buildSystem (system_prompt : Option String) : List NSystemPrompt :=
  match system_prompt with
  | none => []
  | some text => [⟨text⟩]

/-- The request-construction half of `invoke_model`
(`amazon_nova/text/mod.rs`): `user_content` is `Text(user_prompt)` followed by
the encoded attachments in order; `inference_config.unwrap_or_default()`. -/
def invokeModelRequest (fs : String → Option (List Nat))
    (inference_config : Option InferenceConfig)
    (attachments : List FileReference) (system_prompt : Option String)
    (assistant_prefill : Option String) (user_prompt : String) :
    BuildResult Request :=
  match encodeAttachments fs attachments with
  | .processAbort m => .processAbort m
  | .ok cs =>
    .ok { system := buildSystem system_prompt
          messages := buildMessages (.text user_prompt :: cs) assistant_prefill
          inference_config := inference_config.getD InferenceConfig.default }

/-- The successful encoding of one attachment, when there is one (used to
state order-preservation). -/
def encodeAttachmentOk (fs : String → Option (List Nat)) (a : FileReference) :
    Option NContent :=
  match encodeAttachment fs a with
  | .ok c => some c
  | .processAbort _ => none

/-! ## InvokeModel response decoding (`nova_main.rs::parse_response`,
`models/amazon.rs::render_response`)

Both decoders, after serde parsing, run the same walk: assert the role is
assistant, then fold over the content with an optional accumulated text,
panicking on a second text block and on image/video output. -/

/-- Embeds `Output { message }` / `Response { output, stopReason, usage }` — the
parts the decoders inspect (`usage` and `stopReason` are never read by them
beyond parsing, so the message alone is retained). -/
structure NResponse where
  message : NMessage
deriving DecidableEq, Repr

/-- Outcome of a decoder: `ok` with the display text, or `processAbort` when
an `assert!`/`panic!`/`unimplemented!` aborts the process. -/
inductive DecodeOutcome where
  | ok (text : String)
  | processAbort (msg : String)
deriving DecidableEq, Repr

/-- The content fold of `parse_response` / `render_response`: `s` starts
`None`; a text block fills it; a second text block panics; image/video output
is `unimplemented!`; at the end `s.unwrap_or_default()`. -/
def parseResponseGo : List NContent → Option String → DecodeOutcome
  | [], s => .ok (s.getD "")
  | .text v :: rest, none => parseResponseGo rest (some v)
  | .text _ :: _, some _ => .processAbort "content with multiple text elements?"
  | .image _ :: _, _ => .processAbort "image output modality"
  | .video _ :: _, _ => .processAbort "video output modality"

/-- Embeds `parse_response` (`nova_main.rs`) / the walk of `render_response`
(`models/amazon.rs`), on the parsed response: `assert_eq!(Role::Assistant,
msg.role)` then the content fold. -/
def parse_response (rsp : NResponse) : DecodeOutcome :=
  if rsp.message.role = .assistant then parseResponseGo rsp.message.content none
  else .processAbort "assertion failed: Role::Assistant == msg.role"

/-! ## The interactive Converse turn (`converse_main.rs::say`) -/

/-- Modelled from the spec: `genlib::file::detect`, which the Converse CLI
calls (`converse_main.rs` line 205) but whose definition is not among the
sources provided (`file.rs` exposes only the panicking
`From<String> for FileReference`).  Per spec §4.1 the classifier derives
(kind, location, stem, extension) from the reference string: location from
the remote-object-store prefix, stem and extension by splitting the last
segment on the final `.`, kind from the extension mapped case-insensitively
through the fixed tables — the video table being the nine extensions the
spec and the CLI's own `--attach` help list (mp4, mov, mkv, webm, flv, mpeg,
mpg, wmv, 3gp) — and an unmatched extension yields an `UnsupportedKindError`
carrying the original string. -/
def specVideoExts : List String :=
  ["mp4", "mov", "mkv", "webm", "flv", "mpeg", "mpg", "wmv", "3gp"]

/-- Modelled from the spec: the kind table of `genlib::file::detect`
(see `specVideoExts`); image and document tables as in §4.1. -/
def classifyExtensionSpec (ext : String) : Option FileType :=
  if toLowerStr ext ∈ imageExts then some .image
  else if toLowerStr ext ∈ specVideoExts then some .video
  else if toLowerStr ext ∈ documentExts then some .document
  else none

/-- Modelled from the spec: `genlib::file::detect` itself — classification
with no I/O, `Except.error` carrying the original string for an unsupported
kind (spec §4.1: "Unmatched extension → UnsupportedKindError carrying the
original string"). -/
def detect (path : String) :
    Except String (FileType × Location × String × String) :=
  let location := if startsWithS3 path then Location.s3 else Location.local
  let stem := toLowerStr (get_file_stem path)
  let ext := get_extension_from_filename path
  match classifyExtensionSpec ext with
  | some t => .ok (t, location, stem, ext)
  | none => .error path

/-- Embeds `aws_sdk_bedrockruntime::types::Message` as the Converse CLI uses it. -/
structure CMessage where
  role : Role
  content : List CBlock
deriving DecidableEq, Repr

/-- Embeds `ConversationState` — the part a turn reads and mutates: the growing
message history.  (Model id, client, verbosity and the system prompt are
constant through a session and never touched by the history invariants.) -/
structure ConvState where
  messages : List CMessage
deriving DecidableEq, Repr

/-- How a `say` turn ends: `aborted` is an early `return Ok(())` after a
`println!` (the attachment-validation failures), `panicked` is a
`panic!` / `assert!` / `todo!` / `.unwrap()` aborting the process, and
`completed` is a full round-trip, carrying the lines printed for the
assistant's content blocks. -/
inductive SayOutcome where
  | aborted (msg : String)
  | panicked (msg : String)
  | completed (printed : List String)
deriving DecidableEq, Repr

/-- How the attachment loop of `say` can fail: `aborted` is a `println!`
followed by `return Ok(())` (nothing sent, nothing pushed), `panicked` is
the `.unwrap()` on a failing file read. -/
inductive AttachFailure where
  | aborted (msg : String)
  | panicked (msg : String)
deriving DecidableEq, Repr

/-- The `say` outcome a failed attachment loop produces. -/
def AttachFailure.toOutcome : AttachFailure → SayOutcome
  | .aborted m => .aborted m
  | .panicked m => .panicked m

/-- The attachment loop of `say` (`converse_main.rs` lines 204–284): each
path is classified by `detect`, then encoded per (kind, location); any
failure ends the loop — format-table misses and unsupported combinations
print and abort the turn, a failed file read panics. -/
def sayAttachments (fs : String → Option (List Nat)) :
    List String → Except AttachFailure (List CBlock)
  | [] => .ok []
  | path :: rest =>
    match detect path with
    | .error p => .error (.aborted ("Unsupported file type: " ++ p))
    | .ok (ftype, floc, stem, ext) =>
      match ftype, floc with
      | .image, .local =>
        match image_fmt ext with
        | none => .error (.aborted ("invalid image format " ++ path))
        | some fmt =>
          match fs path with
          | none => .error (.panicked path)
          | some bytes =>
            (sayAttachments fs rest).map (fun bs => .image fmt bytes :: bs)
      | .video, .local =>
        match video_fmt ext with
        | none => .error (.aborted ("invalid video format " ++ path))
        | some fmt =>
          match fs path with
          | none => .error (.panicked path)
          | some bytes =>
            (sayAttachments fs rest).map (fun bs => .videoBytes fmt bytes :: bs)
      | .video, .s3 =>
        match video_fmt ext with
        | none => .error (.aborted ("invalid video format " ++ path))
        | some fmt =>
          (sayAttachments fs rest).map (fun bs => .videoS3 fmt path :: bs)
      | .document, .local =>
        match doc_fmt ext with
        | none => .error (.aborted ("invalid doc format " ++ path))
        | some fmt =>
          match fs path with
          | none => .error (.panicked path)
          | some bytes =>
            (sayAttachments fs rest).map (fun bs => .document fmt stem bytes :: bs)
      | _, _ => .error (.aborted ("Unsupported file type: " ++ path))

/-- Printing one response content block (`converse_main.rs` lines 318–331):
`Document` output is `todo!()` — a panic; the other non-text kinds print a
placeholder; text prints itself. -/
def printBlock : CBlock → Except String String
  | .document _ _ _ => .error "todo: document output"
  | .guardContent => .ok "-- guardrail --"
  | .image _ _ => .ok "-- image --"
  | .text s => .ok s
  | .toolResult => .ok "-- tool result --"
  | .toolUse => .ok "-- tool use --"
  | .videoBytes _ _ => .ok "-- video --"
  | .videoS3 _ _ => .ok "-- video --"

/-- Printing the whole response content in order, stopping at a panic. -/
def printBlocks : List CBlock → Except String (List String)
  | [] => .ok []
  | b :: rest =>
    match printBlock b with
    | .error e => .error e
    | .ok s =>
      match printBlocks rest with
      | .error e => .error e
      | .ok ss => .ok (s :: ss)

/-- One interactive turn: `say` (`converse_main.rs` lines 189–340).

The transport abstracts `client.converse().send().await` applied to the full
history: `Except.error` is an SDK `Err` (the source calls `.unwrap()` on it),
`Except.ok none` a response whose output is not a message (the source panics
"No output??"), `Except.ok (some reply)` a returned message.

Control flow follows the source: build the user message (prompt text first,
then the attachment blocks in order; any attachment failure returns before
anything is pushed); push the user message onto the history; send the entire
history; assert the reply role is assistant; print the reply's content
blocks; push the reply.  The returned state is the history at the moment the
turn ends — also at a panic, exhibiting what the process aborts with. -/
def say (fs : String → Option (List Nat))
    (transport : List CMessage → Except String (Option CMessage))
    (st : ConvState) (attach : List String) (prompt : String) :
    SayOutcome × ConvState :=
  match sayAttachments fs attach with
  | .error f => (f.toOutcome, st)
  | .ok blocks =>
    let new_msg : CMessage := ⟨.user, .text prompt :: blocks⟩
    let pushed := st.messages ++ [new_msg]
    match transport pushed with
    | .error e => (.panicked e, ⟨pushed⟩)
    | .ok none => (.panicked "No output??", ⟨pushed⟩)
    | .ok (some reply) =>
      if reply.role = .assistant then
        match printBlocks reply.content with
        | .error e => (.panicked e, ⟨pushed⟩)
        | .ok outs => (.completed outs, ⟨pushed ++ [reply]⟩)
      else (.panicked "assertion failed: ConversationRole::Assistant == msg.role", ⟨pushed⟩)

/-- Conversation states reachable from a fresh session by completed turns
(spec §4.5: Idle → AwaitingReply → Idle), the transport free to differ per
turn. -/
inductive Reachable (fs : String → Option (List Nat)) : ConvState → Prop
  | init : Reachable fs ⟨[]⟩
  | step {st st' : ConvState} {attach : List String} {prompt : String}
      (transport : List CMessage → Except String (Option CMessage))
      {outs : List String} :
      Reachable fs st →
      say fs transport st attach prompt = (.completed outs, st') →
      Reachable fs st'

/-- The strict User/Assistant alternation of length `2 * n`. -/
def rolePattern : Nat → List Role
  | 0 => []
  | n + 1 => .user :: .assistant :: rolePattern n

/-- Text blocks in a response content list. -/
def countTexts (l : List NContent) : Nat :=
  l.countP (fun c => match c with | .text _ => true | _ => false)

/-- A concrete byte oracle for concrete runs: three small files whose
contents are the bytes of `"cat"`. -/
def witnessFs : String → Option (List Nat) := fun p =>
  if p = "cat.png" ∨ p = "cat.PNG" ∨ p = "notes.PDF" then some [99, 97, 116]
  else none

/-- A transport that answers every call with the given reply message. -/
def replyTransport (reply : CMessage) :
    List CMessage → Except String (Option CMessage) :=
  fun _ => .ok (some reply)

/-- A transport whose call fails (an SDK `Err`). -/
def failTransport : List CMessage → Except String (Option CMessage) :=
  fun _ => .error "network error"

/-! ## Helper lemmas -/

/-- Inversion for `From<String> for FileReference`: a successful
classification pins down every field of the produced reference. -/
theorem fileReferenceFromString_ok {path : String} {fr : FileReference}
    (h : fileReferenceFromString path = .ok fr) :
    fr.path = path ∧ fr.extension = get_extension_from_filename path ∧
      fr.stem = toLowerStr (get_file_stem path) ∧
      classifyExtension fr.extension = some fr.file_type := by
  rcases hc : classifyExtension (get_extension_from_filename path) with _ | t
  · simp [fileReferenceFromString, hc] at h
  · simp [fileReferenceFromString, hc] at h
    subst h
    exact ⟨rfl, rfl, rfl, hc⟩

/-- An extension in the image arm classifies as image. -/
theorem classifyLower_image {l : String} (h : l ∈ imageExts) :
    classifyLower l = some .image := by
  simp [classifyLower, h]

/-- An extension in the video arm classifies as video. -/
theorem classifyLower_video {l : String} (h : l ∈ videoExts) :
    classifyLower l = some .video := by
  have h1 : l ∉ imageExts := by fin_cases h <;> decide
  simp [classifyLower, h, h1]

/-- An extension in the document arm classifies as document. -/
theorem classifyLower_document {l : String} (h : l ∈ documentExts) :
    classifyLower l = some .document := by
  have h1 : l ∉ imageExts := by fin_cases h <;> decide
  have h2 : l ∉ videoExts := by fin_cases h <;> decide
  simp [classifyLower, h, h1, h2]

/-- Every lowercased extension in the image table has an image format. -/
theorem imageFmtLower_mem {l : String} (h : l ∈ imageExts) :
    ∃ f, imageFmtLower l = some f := by
  fin_cases h <;> exact ⟨_, rfl⟩

/-- Every lowercased extension in the document table has a document format. -/
theorem docFmtLower_mem {l : String} (h : l ∈ documentExts) :
    ∃ f, docFmtLower l = some f := by
  fin_cases h <;> exact ⟨_, rfl⟩

/-- Lookup in `video_fmt` misses every string containing an uppercase
character: each of its arms is an all-lowercase literal. -/
theorem video_fmt_upper {s : String}
    (h : s.toList.any Char.isUpper = true) : video_fmt s = none := by
  unfold video_fmt
  split_ifs with h1 h2 h3 h4 h5 h6 h7 h8 h9
  · subst h1; exact absurd h (by decide)
  · subst h2; exact absurd h (by decide)
  · subst h3; exact absurd h (by decide)
  · subst h4; exact absurd h (by decide)
  · subst h5; exact absurd h (by decide)
  · subst h6; exact absurd h (by decide)
  · subst h7; exact absurd h (by decide)
  · subst h8; exact absurd h (by decide)
  · subst h9; exact absurd h (by decide)
  · rfl

/-! ## C2 — unrecognised extensions -/

/-- C2, counterexample.  The claim says an unmatched extension "fails with an
UnsupportedKindError value that carries the original string … and does not
abort the process".  On the source, `From<String> for FileReference` has no
error value at all: its unmatched arm is
`panic!("Unsupported file type {}", value)`, which aborts the process
(modelled by `ClassifyResult.processAbort`).  At `"notes.xyz"` the
classification ends in that process abort. -/
theorem c2_counterexample_panic_on_xyz :
    fileReferenceFromString "notes.xyz" = .processAbort "notes.xyz" := by
  decide

/-- C2, amended: for every input string whose extension (case-insensitively)
is not in the image, video, or document tables, classification panics —
aborting the process — with the original string carried in the panic; it
never classifies the reference as some other kind. -/
theorem c2_unmatched_extension_aborts_process (s : String)
    (h : classifyExtension (get_extension_from_filename s) = none) :
    fileReferenceFromString s = .processAbort s := by
  simp [fileReferenceFromString, h]

/-- C2, witness: the amended theorem applied at `"notes.xyz"`. -/
theorem c2_unmatched_extension_aborts_process_witness :
    classifyExtension (get_extension_from_filename "notes.xyz") = none ∧
      fileReferenceFromString "notes.xyz" = .processAbort "notes.xyz" :=
  ⟨by decide, c2_unmatched_extension_aborts_process "notes.xyz" (by decide)⟩

/-! ## C4 — the fixed extension tables -/

/-- C4, counterexample.  The claim lists `mkv` (with `flv`, `wmv`, `3gp`)
among the video extensions, but the video arm of
`From<String> for FileReference` is `mp4 | mov | webm | mpeg | mpg | m4v |
avi`: `"clip.mkv"` reaches the panic arm instead of classifying as video. -/
theorem c4_counterexample_mkv :
    fileReferenceFromString "clip.mkv" = .processAbort "clip.mkv" := by
  decide

/-- C4, amended: in any letter case, png/jpg/jpeg/gif/webp classify as
Image and csv/doc/docx/html/md/pdf/txt/xls/xlsx classify as Document, as
claimed; the video table is mp4/mov/webm/mpeg/mpg/m4v/avi — the claimed
mkv/flv/wmv/3gp are unmatched and hit the panic arm. -/
theorem c4_extension_tables (e : String) :
    (toLowerStr e ∈ imageExts → classifyExtension e = some .image) ∧
    (toLowerStr e ∈ videoExts → classifyExtension e = some .video) ∧
    (toLowerStr e ∈ documentExts → classifyExtension e = some .document) ∧
    (toLowerStr e ∈ ["mkv", "flv", "wmv", "3gp"] → classifyExtension e = none) := by
  unfold classifyExtension
  generalize toLowerStr e = l
  refine ⟨fun h => classifyLower_image h, fun h => classifyLower_video h,
    fun h => classifyLower_document h, fun h => ?_⟩
  fin_cases h <;> decide

/-- C4, witness: the table theorem applied to uppercase variants of one
extension from each arm, and to the unmatched `"MKV"`. -/
theorem c4_extension_tables_witness :
    classifyExtension "PNG" = some .image ∧
      classifyExtension "Mov" = some .video ∧
      classifyExtension "Pdf" = some .document ∧
      classifyExtension "MKV" = none :=
  ⟨(c4_extension_tables "PNG").1 (by decide),
   (c4_extension_tables "Mov").2.1 (by decide),
   (c4_extension_tables "Pdf").2.2.1 (by decide),
   (c4_extension_tables "MKV").2.2.2 (by decide)⟩

/-- Inversion: classifying as image means the lowered extension is in the
image table. -/
theorem classifyLower_image_mem {l : String}
    (h : classifyLower l = some .image) : l ∈ imageExts := by
  unfold classifyLower at h
  split_ifs at h with h1 h2 h3
  all_goals simp_all

/-- Inversion: classifying as document means the lowered extension is in the
document table. -/
theorem classifyLower_document_mem {l : String}
    (h : classifyLower l = some .document) : l ∈ documentExts := by
  unfold classifyLower at h
  split_ifs at h with h1 h2 h3
  all_goals simp_all

/-! ## C10 — format lookup case sensitivity -/

/-- C10: media-encoding format lookup is case-sensitive for video but
case-insensitive for image and document.  A local attachment classified as
Video whose (preserved-case) extension contains an uppercase letter fails
`TryFrom<AttachmentPath> for ContentBlock` with `InvalidPath` because
`video_fmt` matches the extension verbatim against lowercase literals,
whereas local image and document attachments encode successfully whenever
the file is readable, because `image_fmt` / `doc_fmt` lowercase the
extension before lookup. -/
theorem c10_format_lookup_case_sensitivity :
    (∀ (fs : String → Option (List Nat)) (path : String) (fr : FileReference),
        fileReferenceFromString path = .ok fr → fr.file_type = .video →
        fr.location = .local → fr.extension.toList.any Char.isUpper = true →
        contentBlockOfPath fs path = .invalidPath path) ∧
    (∀ (fs : String → Option (List Nat)) (path : String) (fr : FileReference)
        (bytes : List Nat),
        fileReferenceFromString path = .ok fr → fr.file_type = .image →
        fr.location = .local → fs path = some bytes →
        ∃ fmt, image_fmt fr.extension = some fmt ∧
          contentBlockOfPath fs path = .ok (.image fmt bytes)) ∧
    (∀ (fs : String → Option (List Nat)) (path : String) (fr : FileReference)
        (bytes : List Nat),
        fileReferenceFromString path = .ok fr → fr.file_type = .document →
        fr.location = .local → fs path = some bytes →
        ∃ fmt, doc_fmt fr.extension = some fmt ∧
          contentBlockOfPath fs path = .ok (.document fmt fr.stem bytes)) := by
  refine ⟨fun fs path fr h ht hl hup => ?_, fun fs path fr bytes h ht hl hfs => ?_,
    fun fs path fr bytes h ht hl hfs => ?_⟩
  · obtain ⟨hp, _, _, _⟩ := fileReferenceFromString_ok h
    have hv : video_fmt fr.extension = none := video_fmt_upper hup
    rw [← hp]
    simp [contentBlockOfPath, hp, h, ht, hl, hv]
  · obtain ⟨hp, _, _, hc⟩ := fileReferenceFromString_ok h
    rw [ht] at hc
    unfold classifyExtension at hc
    obtain ⟨fmt, hf⟩ := imageFmtLower_mem (classifyLower_image_mem hc)
    have hif : image_fmt fr.extension = some fmt := hf
    refine ⟨fmt, hif, ?_⟩
    simp [contentBlockOfPath, h, ht, hl, hif, hp, hfs]
  · obtain ⟨hp, _, _, hc⟩ := fileReferenceFromString_ok h
    rw [ht] at hc
    unfold classifyExtension at hc
    obtain ⟨fmt, hf⟩ := docFmtLower_mem (classifyLower_document_mem hc)
    have hdf : doc_fmt fr.extension = some fmt := hf
    refine ⟨fmt, hdf, ?_⟩
    simp [contentBlockOfPath, h, ht, hl, hdf, hp, hfs]

/-- C10, witness: `clip.MOV` classifies as Video yet fails with
`InvalidPath`, while `cat.PNG` and `notes.PDF` encode successfully. -/
theorem c10_format_lookup_case_sensitivity_witness :
    contentBlockOfPath witnessFs "clip.MOV" = .invalidPath "clip.MOV" ∧
    (∃ fmt, image_fmt "PNG" = some fmt ∧
      contentBlockOfPath witnessFs "cat.PNG" = .ok (.image fmt [99, 97, 116])) ∧
    (∃ fmt, doc_fmt "PDF" = some fmt ∧
      contentBlockOfPath witnessFs "notes.PDF"
        = .ok (.document fmt "notes" [99, 97, 116])) :=
  ⟨c10_format_lookup_case_sensitivity.1 witnessFs "clip.MOV"
      ⟨.video, .local, "clip.MOV", "clip", "MOV"⟩ (by decide) rfl rfl (by decide),
   c10_format_lookup_case_sensitivity.2.1 witnessFs "cat.PNG"
      ⟨.image, .local, "cat.PNG", "cat", "PNG"⟩ [99, 97, 116]
      (by decide) rfl rfl (by decide),
   c10_format_lookup_case_sensitivity.2.2 witnessFs "notes.PDF"
      ⟨.document, .local, "notes.PDF", "notes", "PDF"⟩ [99, 97, 116]
      (by decide) rfl rfl (by decide)⟩

/-- A successful attachment loop encodes each attachment, in order. -/
theorem encodeAttachments_ok {fs : String → Option (List Nat)}
    {atts : List FileReference} {cs : List NContent}
    (h : encodeAttachments fs atts = .ok cs) :
    cs = atts.filterMap (encodeAttachmentOk fs) ∧ cs.length = atts.length := by
  induction atts generalizing cs with
  | nil =>
    simp [encodeAttachments] at h
    subst h
    simp
  | cons a rest ih =>
    unfold encodeAttachments at h
    rcases ha : encodeAttachment fs a with c | m
    · rw [ha] at h
      rcases hr : encodeAttachments fs rest with cs' | m
      · rw [hr] at h
        cases h
        obtain ⟨h1, h2⟩ := ih hr
        have hok : encodeAttachmentOk fs a = some c := by
          unfold encodeAttachmentOk
          rw [ha]
        simp [List.filterMap_cons, hok, ← h1, h2]
      · rw [hr] at h
        exact absurd h (by simp)
    · rw [ha] at h
      exact absurd h (by simp)

/-! ## C7 — user message content order -/

/-- C7: whenever `invoke_model` builds a request, the user message is the
head of the message list, its content is `Text(prompt)` followed by exactly
one encoded block per attachment in the order given, and a local image
attachment encodes to an Image block whose format is the stored extension
and whose bytes are the base64 of the file's bytes. -/
theorem c7_user_message_content
    (fs : String → Option (List Nat)) (cfg : Option InferenceConfig)
    (atts : List FileReference) (sys : Option String) (pre : Option String)
    (prompt : String) (r : Request)
    (h : invokeModelRequest fs cfg atts sys pre prompt = .ok r) :
    r.messages.head?
        = some ⟨.user, .text prompt :: atts.filterMap (encodeAttachmentOk fs)⟩ ∧
    (atts.filterMap (encodeAttachmentOk fs)).length = atts.length ∧
    (∀ (a : FileReference) (bytes : List Nat),
        a.file_type = .image → a.location = .local → fs a.path = some bytes →
        encodeAttachmentOk fs a
          = some (.image ⟨a.extension, ⟨base64Encode bytes⟩⟩)) := by
  unfold invokeModelRequest at h
  rcases he : encodeAttachments fs atts with cs | m
  · rw [he] at h
    cases h
    obtain ⟨h1, h2⟩ := encodeAttachments_ok he
    refine ⟨?_, by rw [← h1]; exact h2, ?_⟩
    · simp [buildMessages, ← h1]
    · intro a bytes ht hl hfs
      unfold encodeAttachmentOk encodeAttachment
      rw [ht, hl]
      simp [hfs]
  · rw [he] at h
    exact absurd h (by simp)

/-- C7, witness: Scenario A — prompt "Describe this photo" with the single
local image `cat.png` whose bytes are `[99, 97, 116]` (`"cat"`), whose
base64 is `"Y2F0"`. -/
theorem c7_user_message_content_witness :
    invokeModelRequest witnessFs none
        [⟨.image, .local, "cat.png", "cat", "png"⟩] none none "Describe this photo"
      = .ok ⟨[], [⟨.user, [.text "Describe this photo", .image ⟨"png", ⟨"Y2F0"⟩⟩]⟩],
             InferenceConfig.default⟩ ∧
    (⟨[], [⟨.user, [.text "Describe this photo", .image ⟨"png", ⟨"Y2F0"⟩⟩]⟩],
       InferenceConfig.default⟩ : Request).messages.head?
      = some ⟨.user, .text "Describe this photo" ::
          [(⟨.image, .local, "cat.png", "cat", "png"⟩ : FileReference)].filterMap
            (encodeAttachmentOk witnessFs)⟩ :=
  ⟨by decide,
   (c7_user_message_content witnessFs none
      [⟨.image, .local, "cat.png", "cat", "png"⟩] none none "Describe this photo"
      _ (by decide)).1⟩

/-! ## C9 — structural omission of empty wire fields -/

/-- C9: the serialized request omits the `"inferenceConfig"` key exactly
when every numeric knob is unset and the stop-sequence list is empty
(`InferenceConfig::is_empty`), and omits the `"system"` key exactly when the
system list is empty — in both cases the key is structurally absent rather
than present with an empty value. -/
theorem c9_wire_field_omission (r : Request) :
    ((requestToJson r).hasKey "inferenceConfig" = false ↔
        r.inference_config.is_empty = true) ∧
    ((requestToJson r).hasKey "system" = false ↔ r.system = []) := by
  cases hs : r.system.isEmpty <;> cases hc : r.inference_config.is_empty <;>
    simp_all [requestToJson, JValue.hasKey, List.isEmpty_iff, List.any_append]

/-- A failed attachment loop makes `say` return its outcome with the state
untouched: the early `return Ok(())` (or the read panic) happens before
anything is pushed. -/
theorem say_attach_error {fs : String → Option (List Nat)}
    {tr : List CMessage → Except String (Option CMessage)}
    {st : ConvState} {att : List String} {p : String} {f : AttachFailure}
    (h : sayAttachments fs att = .error f) :
    say fs tr st att p = (f.toOutcome, st) := by
  simp [say, h]

/-- Inversion of a completed turn: the attachments encoded, the transport
returned a message, its role passed the assistant assertion, its blocks all
printed, and the history gained exactly the user message and the reply. -/
theorem say_completed {fs : String → Option (List Nat)}
    {tr : List CMessage → Except String (Option CMessage)}
    {st : ConvState} {att : List String} {p : String}
    {outs : List String} {st' : ConvState}
    (h : say fs tr st att p = (.completed outs, st')) :
    ∃ blocks reply,
      sayAttachments fs att = .ok blocks ∧
      tr (st.messages ++ [⟨.user, .text p :: blocks⟩]) = .ok (some reply) ∧
      reply.role = .assistant ∧ printBlocks reply.content = .ok outs ∧
      st'.messages = st.messages ++ [⟨.user, .text p :: blocks⟩, reply] := by
  rcases ha : sayAttachments fs att with f | blocks
  · rw [say_attach_error ha] at h
    cases f <;> simp [AttachFailure.toOutcome] at h
  · simp only [say, ha] at h
    rcases htr : tr (st.messages ++ [⟨.user, .text p :: blocks⟩]) with e | mo
    · rw [htr] at h
      simp at h
    · rw [htr] at h
      rcases mo with _ | reply
      · simp at h
      · by_cases hr : reply.role = .assistant
        · rcases hp : printBlocks reply.content with e | outs'
          · simp [hr, hp] at h
          · simp [hr, hp] at h
            obtain ⟨h1, h2⟩ := h
            exact ⟨blocks, reply, rfl, htr, hr, by rw [hp, h1], by rw [← h2]⟩
        · simp [hr] at h

/-- A panic after the attachment loop succeeded (transport `unwrap`, missing
output, role assertion, or response printing) happens with the user message
already pushed and the reply not pushed. -/
theorem say_panicked_after_push {fs : String → Option (List Nat)}
    {tr : List CMessage → Except String (Option CMessage)}
    {st : ConvState} {att : List String} {p : String}
    {e : String} {st' : ConvState} {blocks : List CBlock}
    (hb : sayAttachments fs att = .ok blocks)
    (h : say fs tr st att p = (.panicked e, st')) :
    st'.messages = st.messages ++ [⟨.user, .text p :: blocks⟩] := by
  simp only [say, hb] at h
  rcases htr : tr (st.messages ++ [⟨.user, .text p :: blocks⟩]) with e' | mo
  · rw [htr] at h
    simp at h
    exact congrArg ConvState.messages h.2.symm
  · rw [htr] at h
    rcases mo with _ | reply
    · simp at h
      exact congrArg ConvState.messages h.2.symm
    · by_cases hr : reply.role = .assistant
      · rcases hp : printBlocks reply.content with e' | outs'
        · simp [hr, hp] at h
          exact congrArg ConvState.messages h.2.symm
        · simp [hr, hp] at h
      · simp [hr] at h
        exact congrArg ConvState.messages h.2.symm

/-! ## C1 — failure containment of a turn -/

/-- C1, counterexample.  The claim says any failing step — the transport
call included — leaves history exactly as it was before the turn.  In the
source, `say` pushes the user message *before*
`client.converse().send().await.unwrap()`; a transport failure therefore
panics with the history already grown by the user message.  Concretely: a
turn on an empty history whose transport fails ends with one message in the
history, not zero. -/
theorem c1_counterexample_transport_failure :
    say witnessFs failTransport ⟨[]⟩ [] "hi"
        = (.panicked "network error", ⟨[⟨.user, [.text "hi"]⟩]⟩) ∧
      (⟨[⟨.user, [.text "hi"]⟩]⟩ : ConvState) ≠ (⟨[]⟩ : ConvState) := by
  constructor
  · decide
  · decide

/-- C1, amended: an attachment-stage failure (classification or encoding)
ends the turn with the history untouched; but a failure after that —
transport error, missing output, role assertion, or response printing — is
a panic that happens with the user message already appended (and no
assistant reply); both messages are appended exactly when the full
round-trip succeeds. -/
theorem c1_turn_failure_history :
    (∀ (fs : String → Option (List Nat))
        (tr : List CMessage → Except String (Option CMessage))
        (st : ConvState) (att : List String) (p : String) (f : AttachFailure),
        sayAttachments fs att = .error f →
        say fs tr st att p = (f.toOutcome, st)) ∧
    (∀ (fs : String → Option (List Nat))
        (tr : List CMessage → Except String (Option CMessage))
        (st : ConvState) (att : List String) (p : String) (e : String)
        (st' : ConvState) (blocks : List CBlock),
        sayAttachments fs att = .ok blocks →
        say fs tr st att p = (.panicked e, st') →
        st'.messages = st.messages ++ [⟨.user, .text p :: blocks⟩]) ∧
    (∀ (fs : String → Option (List Nat))
        (tr : List CMessage → Except String (Option CMessage))
        (st : ConvState) (att : List String) (p : String)
        (outs : List String) (st' : ConvState),
        say fs tr st att p = (.completed outs, st') →
        ∃ blocks reply, reply.role = .assistant ∧
          st'.messages = st.messages ++ [⟨.user, .text p :: blocks⟩, reply]) :=
  ⟨fun _ _ _ _ _ _ h => say_attach_error h,
   fun _ _ _ _ _ _ _ _ hb h => say_panicked_after_push hb h,
   fun _ _ _ _ _ _ _ h => by
     obtain ⟨blocks, reply, _, _, hrole, _, hmsgs⟩ := say_completed h
     exact ⟨blocks, reply, hrole, hmsgs⟩⟩

/-- C1, witness: the three conjuncts at concrete turns — an aborting
attachment (`notes.xyz`) leaves the empty history empty; a transport failure
leaves exactly the pushed user message; a successful turn appends the user
message and the assistant reply. -/
theorem c1_turn_failure_history_witness :
    say witnessFs failTransport ⟨[]⟩ ["notes.xyz"] "hi"
        = ((AttachFailure.aborted "Unsupported file type: notes.xyz").toOutcome,
           (⟨[]⟩ : ConvState)) ∧
    (say witnessFs failTransport ⟨[]⟩ [] "hi").2.messages
        = [] ++ [⟨.user, [.text "hi"]⟩] ∧
    (∃ blocks reply, reply.role = .assistant ∧
      (say witnessFs (replyTransport ⟨.assistant, [.text "ok"]⟩) ⟨[]⟩ [] "hi").2.messages
        = [] ++ [⟨.user, .text "hi" :: blocks⟩, reply]) :=
  ⟨c1_turn_failure_history.1 witnessFs failTransport ⟨[]⟩ ["notes.xyz"] "hi"
      (.aborted "Unsupported file type: notes.xyz") rfl,
   c1_turn_failure_history.2.1 witnessFs failTransport ⟨[]⟩ [] "hi"
      "network error" _ [] rfl (by decide),
   c1_turn_failure_history.2.2 witnessFs (replyTransport ⟨.assistant, [.text "ok"]⟩)
      ⟨[]⟩ [] "hi" ["ok"] _ (by decide)⟩

/-! ## C3 — failed attachment encoding aborts the turn -/

/-- C3: a failing attachment loop ends the turn with the history — hence
its length — unchanged and no user message appended; and an attachment with
an extension outside the classification tables (such as `notes.xyz`) makes
the loop fail with the "Unsupported file type" message carrying the
offending path.  (`genlib::file::detect` is modelled from the spec; see
`detect`.) -/
theorem c3_attachment_failure_aborts_turn :
    (∀ (fs : String → Option (List Nat))
        (tr : List CMessage → Except String (Option CMessage))
        (st : ConvState) (att : List String) (p : String) (f : AttachFailure),
        sayAttachments fs att = .error f →
        say fs tr st att p = (f.toOutcome, st) ∧
          (say fs tr st att p).2.messages.length = st.messages.length) ∧
    (∀ (fs : String → Option (List Nat)) (path : String) (rest : List String),
        classifyExtensionSpec (get_extension_from_filename path) = none →
        sayAttachments fs (path :: rest)
          = .error (.aborted ("Unsupported file type: " ++ path))) := by
  constructor
  · intro fs tr st att p f h
    refine ⟨say_attach_error h, ?_⟩
    rw [say_attach_error h]
  · intro fs path rest h
    unfold sayAttachments
    simp [detect, h]

/-- C3, witness: Scenario C — the single attachment `notes.xyz` aborts the
turn with the path in the message and the history length unchanged. -/
theorem c3_attachment_failure_aborts_turn_witness :
    (say witnessFs failTransport ⟨[]⟩ ["notes.xyz"] "hello"
        = (.aborted "Unsupported file type: notes.xyz", (⟨[]⟩ : ConvState)) ∧
      (say witnessFs failTransport ⟨[]⟩ ["notes.xyz"] "hello").2.messages.length
        = (⟨[]⟩ : ConvState).messages.length) ∧
    sayAttachments witnessFs ["notes.xyz"]
      = .error (.aborted ("Unsupported file type: " ++ "notes.xyz")) :=
  ⟨c3_attachment_failure_aborts_turn.1 witnessFs failTransport ⟨[]⟩ ["notes.xyz"]
      "hello" (.aborted "Unsupported file type: notes.xyz") rfl,
   c3_attachment_failure_aborts_turn.2 witnessFs "notes.xyz" [] (by decide)⟩

/-! ## C5 — non-assistant response role -/

/-- C5, counterexample.  The claim says a payload whose top-level message
role is not Assistant makes decoding "fail with a DecodeError".  The source
decoders have no such error value: they run
`assert_eq!(Role::Assistant, msg.role)`, a panic that aborts the process.
At Scenario D's payload (role `user`, empty content) the decode is exactly
that process abort, not a returned error. -/
theorem c5_counterexample_role_assert_panics :
    parse_response ⟨⟨.user, []⟩⟩
      = .processAbort "assertion failed: Role::Assistant == msg.role" := by
  decide

/-- C5, amended: a response whose message role is not Assistant makes the
decoders panic on the role assertion — aborting the process, returning no
display text, never coercing the role; in the Converse CLI the same
assertion fires after the user message was pushed and before any reply is
appended, so no assistant message ever enters the history from such a
response. -/
theorem c5_role_violation_panics :
    (∀ rsp : NResponse, rsp.message.role ≠ .assistant →
        parse_response rsp
          = .processAbort "assertion failed: Role::Assistant == msg.role") ∧
    (∀ (fs : String → Option (List Nat))
        (tr : List CMessage → Except String (Option CMessage))
        (st : ConvState) (att : List String) (p : String)
        (blocks : List CBlock) (reply : CMessage),
        sayAttachments fs att = .ok blocks →
        tr (st.messages ++ [⟨.user, .text p :: blocks⟩]) = .ok (some reply) →
        reply.role ≠ .assistant →
        say fs tr st att p
          = (.panicked "assertion failed: ConversationRole::Assistant == msg.role",
             ⟨st.messages ++ [⟨.user, .text p :: blocks⟩]⟩)) := by
  constructor
  · intro rsp h
    simp [parse_response, h]
  · intro fs tr st att p blocks reply hb htr hr
    simp only [say, hb]
    rw [htr]
    simp [hr]

/-- C5, witness: the role assertion at Scenario D's decoded payload, and a
Converse turn whose transport replies with a user-role message. -/
theorem c5_role_violation_panics_witness :
    parse_response ⟨⟨.user, []⟩⟩
        = .processAbort "assertion failed: Role::Assistant == msg.role" ∧
    say witnessFs (replyTransport ⟨.user, []⟩) ⟨[]⟩ [] "q"
        = (.panicked "assertion failed: ConversationRole::Assistant == msg.role",
           ⟨[] ++ [⟨.user, [.text "q"]⟩]⟩) :=
  ⟨c5_role_violation_panics.1 ⟨⟨.user, []⟩⟩ (by decide),
   c5_role_violation_panics.2 witnessFs (replyTransport ⟨.user, []⟩) ⟨[]⟩ [] "q"
      [] ⟨.user, []⟩ rfl rfl (by decide)⟩

/-! ## C6 — more than one Text block in a response -/

/-- The content fold aborts whenever it is bound to meet a second text: with
two texts still ahead, or one ahead and one already accumulated. -/
theorem parseResponseGo_abort {l : List NContent} {s : Option String}
    (h : 2 ≤ countTexts l ∨ (1 ≤ countTexts l ∧ s.isSome = true)) :
    ∃ m, parseResponseGo l s = .processAbort m := by
  induction l generalizing s with
  | nil =>
    rcases h with h | ⟨h, _⟩ <;> simp [countTexts] at h
  | cons c rest ih =>
    cases c with
    | text v =>
      cases s with
      | none =>
        simp only [parseResponseGo]
        refine ih (Or.inr ⟨?_, rfl⟩)
        rcases h with h | ⟨_, hs⟩
        · have hc : countTexts (NContent.text v :: rest) = countTexts rest + 1 := by
            simp [countTexts]
          rw [hc] at h
          omega
        · simp at hs
      | some w => exact ⟨_, rfl⟩
    | image i => exact ⟨_, rfl⟩
    | video v => exact ⟨_, rfl⟩

/-- Printing a run of text blocks prints each text, in order, successfully. -/
theorem printBlocks_texts (xs : List String) :
    printBlocks (xs.map CBlock.text) = .ok xs := by
  induction xs with
  | nil => rfl
  | cons x rest ih => simp [printBlocks, printBlock, ih]

/-- C6, counterexample.  The claim says decoding an assistant message with
more than one Text block "fails with a DecodeError … rather than returning a
result".  The Converse CLI (one of the claim's own decoders) does neither:
it prints every Text block in order and the turn completes, appending the
reply to the history. -/
theorem c6_counterexample_converse_returns_result :
    say witnessFs (replyTransport ⟨.assistant, [.text "first", .text "second"]⟩)
        ⟨[]⟩ [] "p"
      = (.completed ["first", "second"],
         ⟨[⟨.user, [.text "p"]⟩,
           ⟨.assistant, [.text "first", .text "second"]⟩]⟩) := by
  decide

/-- C6, amended: the InvokeModel decoders panic — aborting the process, not
returning a DecodeError — on an assistant message holding two or more Text
blocks, so the texts are never concatenated there; the Converse CLI instead
prints each Text block in order and the turn succeeds with the reply
appended unchanged. -/
theorem c6_multiple_text_blocks :
    (∀ msg : NMessage, msg.role = .assistant → 2 ≤ countTexts msg.content →
        ∃ m, parse_response ⟨msg⟩ = .processAbort m) ∧
    (∀ (fs : String → Option (List Nat))
        (tr : List CMessage → Except String (Option CMessage))
        (st : ConvState) (att : List String) (p : String)
        (blocks : List CBlock) (reply : CMessage) (xs : List String),
        sayAttachments fs att = .ok blocks →
        tr (st.messages ++ [⟨.user, .text p :: blocks⟩]) = .ok (some reply) →
        reply.role = .assistant → reply.content = xs.map CBlock.text →
        say fs tr st att p
          = (.completed xs,
             ⟨st.messages ++ [⟨.user, .text p :: blocks⟩, reply]⟩)) := by
  constructor
  · intro msg hrole htwo
    simp only [parse_response, hrole, if_pos]
    exact parseResponseGo_abort (Or.inl htwo)
  · intro fs tr st att p blocks reply xs hb htr hrole hcontent
    simp only [say, hb]
    rw [htr]
    simp [hrole, hcontent, printBlocks_texts]

/-- C6, witness: the InvokeModel decoder panics on `[Text "a", Text "b"]`,
and the Converse turn completes printing both. -/
theorem c6_multiple_text_blocks_witness :
    (∃ m, parse_response ⟨⟨.assistant, [.text "a", .text "b"]⟩⟩
        = .processAbort m) ∧
    say witnessFs (replyTransport ⟨.assistant, [.text "a", .text "b"]⟩) ⟨[]⟩ [] "q"
      = (.completed ["a", "b"],
         ⟨[] ++ [⟨.user, [.text "q"]⟩, ⟨.assistant, [.text "a", .text "b"]⟩]⟩) :=
  ⟨c6_multiple_text_blocks.1 ⟨.assistant, [.text "a", .text "b"]⟩ rfl (by decide),
   c6_multiple_text_blocks.2 witnessFs
      (replyTransport ⟨.assistant, [.text "a", .text "b"]⟩) ⟨[]⟩ [] "q"
      [] ⟨.assistant, [.text "a", .text "b"]⟩ ["a", "b"] rfl rfl rfl rfl⟩

/-! ## C8 — role alternation and append-only history -/

/-- The alternation pattern grows by a User/Assistant pair at the tail. -/
theorem rolePattern_append (n : Nat) :
    rolePattern (n + 1) = rolePattern n ++ [.user, .assistant] := by
  induction n with
  | zero => rfl
  | succ k ih =>
    show Role.user :: Role.assistant :: rolePattern (k + 1)
        = (Role.user :: Role.assistant :: rolePattern k) ++ [.user, .assistant]
    rw [ih]
    rfl

/-- C8: the request builder's message list always has a User head (it is
never Assistant-first) with at most one trailing Assistant prefill; every
completed Converse turn appends exactly a User message then an Assistant
message, touching nothing before them; hence every history reachable by
completed turns from a fresh session is the strict alternation
User, Assistant, User, … of even length. -/
theorem c8_role_alternation :
    (∀ (uc : List NContent) (pre : Option String),
        (buildMessages uc pre).map NMessage.role
          = .user :: (match pre with | none => [] | some _ => [.assistant])) ∧
    (∀ (fs : String → Option (List Nat))
        (tr : List CMessage → Except String (Option CMessage))
        (st : ConvState) (att : List String) (p : String)
        (outs : List String) (st' : ConvState),
        say fs tr st att p = (.completed outs, st') →
        ∃ u a, st'.messages = st.messages ++ [u, a] ∧
          u.role = .user ∧ a.role = .assistant) ∧
    (∀ (fs : String → Option (List Nat)) (st : ConvState), Reachable fs st →
        ∃ n, st.messages.map CMessage.role = rolePattern n ∧
          st.messages.length = 2 * n) := by
  refine ⟨fun uc pre => ?_, fun fs tr st att p outs st' h => ?_, fun fs st h => ?_⟩
  · cases pre <;> rfl
  · obtain ⟨blocks, reply, _, _, hrole, _, hmsgs⟩ := say_completed h
    exact ⟨⟨.user, .text p :: blocks⟩, reply, hmsgs, rfl, hrole⟩
  · induction h with
    | init => exact ⟨0, rfl, rfl⟩
    | step transport hreach hsay ih =>
      obtain ⟨n, hroles, hlen⟩ := ih
      obtain ⟨blocks, reply, _, _, hrole, _, hmsgs⟩ := say_completed hsay
      refine ⟨n + 1, ?_, ?_⟩
      · rw [hmsgs, List.map_append, hroles, rolePattern_append]
        simp [hrole]
      · rw [hmsgs, List.length_append, hlen]
        simp
        omega

/-- C8, witness: a prefilled build is [User, Assistant]; the state after two
concrete completed turns is reachable, alternates, and is Scenario E's
[User, Assistant, User, Assistant] of length 4. -/
theorem c8_role_alternation_witness :
    (buildMessages [.text "p"] (some "prefill")).map NMessage.role
        = [.user, .assistant] ∧
    (∃ n, (⟨[⟨.user, [.text "p1"]⟩, ⟨.assistant, [.text "a1"]⟩,
             ⟨.user, [.text "p2"]⟩, ⟨.assistant, [.text "a2"]⟩]⟩ :
        ConvState).messages.map CMessage.role = rolePattern n ∧
      (⟨[⟨.user, [.text "p1"]⟩, ⟨.assistant, [.text "a1"]⟩,
         ⟨.user, [.text "p2"]⟩, ⟨.assistant, [.text "a2"]⟩]⟩ :
        ConvState).messages.length = 2 * n) ∧
    ([⟨.user, [.text "p1"]⟩, ⟨.assistant, [.text "a1"]⟩,
      ⟨.user, [.text "p2"]⟩, ⟨.assistant, [.text "a2"]⟩] :
        List CMessage).map CMessage.role
      = [.user, .assistant, .user, .assistant] ∧
    ([⟨.user, [.text "p1"]⟩, ⟨.assistant, [.text "a1"]⟩,
      ⟨.user, [.text "p2"]⟩, ⟨.assistant, [.text "a2"]⟩] :
        List CMessage).length = 4 :=
  by
  refine ⟨c8_role_alternation.1 [.text "p"] (some "prefill"), ?_, by decide, by decide⟩
  have h1 : say witnessFs (replyTransport ⟨.assistant, [.text "a1"]⟩) ⟨[]⟩ [] "p1"
      = (.completed ["a1"],
         ⟨[⟨.user, [.text "p1"]⟩, ⟨.assistant, [.text "a1"]⟩]⟩) := by decide
  have h2 : say witnessFs (replyTransport ⟨.assistant, [.text "a2"]⟩)
      ⟨[⟨.user, [.text "p1"]⟩, ⟨.assistant, [.text "a1"]⟩]⟩ [] "p2"
      = (.completed ["a2"],
         ⟨[⟨.user, [.text "p1"]⟩, ⟨.assistant, [.text "a1"]⟩,
           ⟨.user, [.text "p2"]⟩, ⟨.assistant, [.text "a2"]⟩]⟩) := by decide
  exact c8_role_alternation.2.2 witnessFs _
    (Reachable.step _ (Reachable.step _ Reachable.init h1) h2)

end BedrockLib
